import Mathlib

/-!
# GentleDB — shallow embedding and verification

Shallow embedding of the core of `src/GentleDB.js` (GentleDB v1.0.2, the
revision in `src/unnamed/part_005`): the JSON document model, deep equality
(`_deepEqual`), deep merge (`_deepMerge`), the top-level change diff
(`_computeTopLevelChanges`), the debounced-write coalescing and flush pipeline
(`_debouncedWrite`), the sequential hook dispatcher (`_emitSequential`), the
external-change reconciler (`_handleExternalFileChange`), the lock-acquisition
loop (`_acquireLock`) and the token matcher (`_parseToTokens` / `findMatches`).

Modelling conventions:
* JSON documents are modelled by the inductive `Doc`; JS objects are
  association lists in insertion order (JS objects cannot carry duplicate
  keys, so lemmas that need it take `Nodup` hypotheses on the key lists).
* Numbers are modelled as `Int`: every number appearing in the claims is a
  small integer, and none of the verified code paths depend on float
  behaviour beyond equality.
* `GentleDB._cloneSafe` (structuredClone / JSON round-trip) is the identity
  on the pure tree model: a clone is structurally equal to its input, and
  aliasing does not exist in a pure model.
* `undefined` is representable only where the code distinguishes it
  (`Option Doc`); the JSON document tree itself never contains `undefined`.
-/

namespace GentleDB

/-- JSON-shaped document values (`Document` in the spec). -/
inductive Doc where
  | null : Doc
  | bool : Bool → Doc
  | num : Int → Doc
  | str : String → Doc
  | arr : List Doc → Doc
  | obj : List (String × Doc) → Doc
deriving Repr

mutual

/-- Structural equality of documents (plain constructor-wise equality; the
source's order-insensitive `_deepEqual` is modelled separately below). -/
def Doc.beq : Doc → Doc → Bool
  | .null, .null => true
  | .bool x, .bool y => x == y
  | .num x, .num y => x == y
  | .str x, .str y => x == y
  | .arr xs, .arr ys => Doc.beqList xs ys
  | .obj xs, .obj ys => Doc.beqEntries xs ys
  | _, _ => false

def Doc.beqList : List Doc → List Doc → Bool
  | [], [] => true
  | x :: xs, y :: ys => Doc.beq x y && Doc.beqList xs ys
  | _, _ => false

def Doc.beqEntries : List (String × Doc) → List (String × Doc) → Bool
  | [], [] => true
  | (k, v) :: xs, (k', v') :: ys => k == k' && Doc.beq v v' && Doc.beqEntries xs ys
  | _, _ => false

end

mutual

theorem Doc.beq_iff : ∀ a b : Doc, Doc.beq a b = true ↔ a = b
  | .null, .null => by simp [Doc.beq]
  | .bool x, .bool y => by simp [Doc.beq]
  | .num x, .num y => by simp [Doc.beq]
  | .str x, .str y => by simp [Doc.beq]
  | .arr xs, .arr ys => by simp [Doc.beq, Doc.beqList_iff xs ys]
  | .obj xs, .obj ys => by simp [Doc.beq, Doc.beqEntries_iff xs ys]
  | .null, .bool _ | .null, .num _ | .null, .str _ | .null, .arr _ | .null, .obj _
  | .bool _, .null | .bool _, .num _ | .bool _, .str _ | .bool _, .arr _ | .bool _, .obj _
  | .num _, .null | .num _, .bool _ | .num _, .str _ | .num _, .arr _ | .num _, .obj _
  | .str _, .null | .str _, .bool _ | .str _, .num _ | .str _, .arr _ | .str _, .obj _
  | .arr _, .null | .arr _, .bool _ | .arr _, .num _ | .arr _, .str _ | .arr _, .obj _
  | .obj _, .null | .obj _, .bool _ | .obj _, .num _ | .obj _, .str _ | .obj _, .arr _ =>
      by simp [Doc.beq]

theorem Doc.beqList_iff : ∀ xs ys : List Doc, Doc.beqList xs ys = true ↔ xs = ys
  | [], [] => by simp [Doc.beqList]
  | [], _ :: _ => by simp [Doc.beqList]
  | _ :: _, [] => by simp [Doc.beqList]
  | x :: xs, y :: ys => by
      simp [Doc.beqList, Doc.beq_iff x y, Doc.beqList_iff xs ys]

theorem Doc.beqEntries_iff :
    ∀ xs ys : List (String × Doc), Doc.beqEntries xs ys = true ↔ xs = ys
  | [], [] => by simp [Doc.beqEntries]
  | [], _ :: _ => by simp [Doc.beqEntries]
  | _ :: _, [] => by simp [Doc.beqEntries]
  | (k, v) :: xs, (k', v') :: ys => by
      simp [Doc.beqEntries, Doc.beq_iff v v', Doc.beqEntries_iff xs ys, and_assoc]

end

instance : DecidableEq Doc := fun a b =>
  decidable_of_iff (Doc.beq a b = true) (Doc.beq_iff a b)

/-- First-match association-list lookup: JS property access `o[k]` on an
object, returning `none` for `undefined`. -/
def assocGet : List (String × Doc) → String → Option Doc
  | [], _ => none
  | (k', v) :: rest, k => if k' = k then some v else assocGet rest k

/-- JS property assignment `o[k] = v`: overwrites an existing key in place,
appends a fresh key at the end (JS insertion order). -/
def assocSet : List (String × Doc) → String → Doc → List (String × Doc)
  | [], k, v => [(k, v)]
  | (k', v') :: rest, k, v =>
      if k' = k then (k, v) :: rest else (k', v') :: assocSet rest k v

theorem assocGet_assocSet_self (l : List (String × Doc)) (k : String) (v : Doc) :
    assocGet (assocSet l k v) k = some v := by
  induction l with
  | nil => simp [assocSet, assocGet]
  | cons hd tl ih =>
      by_cases h : hd.1 = k
      · simp [assocSet, assocGet, h]
      · simp [assocSet, assocGet, h, ih]

theorem assocGet_assocSet_ne (l : List (String × Doc)) (k k' : String) (v : Doc)
    (h : k' ≠ k) : assocGet (assocSet l k' v) k = assocGet l k := by
  induction l with
  | nil => simp [assocSet, assocGet, h]
  | cons hd tl ih =>
      by_cases hh : hd.1 = k'
      · simp [assocSet, assocGet, hh, h]
      · simp only [assocSet, hh, if_false]
        by_cases hk : hd.1 = k
        · simp [assocGet, hk]
        · simp [assocGet, hk, ih]

mutual

/-- `_deepEqual(a, b)`. -/
def deepEqualB : Doc → Doc → Bool
  | .null, .null => true
  | .bool x, .bool y => x == y
  | .num x, .num y => x == y
  | .str x, .str y => x == y
  | .arr xs, .arr ys => deepEqualArr xs ys
  | .obj xs, .obj ys => (xs.length == ys.length) && deepEqualKeys xs ys
  | _, _ => false

/-- The array branch of `_deepEqual`: the source checks `a.length !==
b.length` and then compares pairwise; the pairwise recursion below has the
identical net effect. -/
def deepEqualArr : List Doc → List Doc → Bool
  | [], [] => true
  | x :: xs, y :: ys => deepEqualB x y && deepEqualArr xs ys
  | _, _ => false

/-- The object branch of `_deepEqual`: for each key of `a`, `b` must own the
key and the values must be deep-equal. -/
def deepEqualKeys : List (String × Doc) → List (String × Doc) → Bool
  | [], _ => true
  | (k, v) :: rest, ys =>
      (match assocGet ys k with
       | some w => deepEqualB v w
       | none => false) && deepEqualKeys rest ys

end

/-! ## `_deepMerge` (part_005 lines 872-888)

```js
_deepMerge(a, b) {
    if (b === undefined) return a;
    if (a === undefined || a === null) return GentleDB._cloneSafe(b);
    if (typeof a !== 'object' || typeof b !== 'object' || Array.isArray(a) || Array.isArray(b)) return GentleDB._cloneSafe(b);
    for (const k of Object.keys(b)) {
        if (k === '__proto__' || k === 'constructor' || k === 'prototype') continue;
        const bv = b[k];
        if (bv === undefined) continue;
        if (typeof bv === 'object' && bv !== null && !Array.isArray(bv)) {
            a[k] = this._deepMerge(a[k] === undefined ? {} : a[k], bv);
        } else {
            a[k] = GentleDB._cloneSafe(bv);
        }
    }
    return a;
}
```
The `b === undefined` guard is unreachable from the modelled call sites
(`_debouncedWrite` tests `typeof pending.data === 'undefined'` before
calling), and a JSON document tree never holds `undefined` values, so the
`bv === undefined` skip is vacuous in the model. -/

/-- The prototype-pollution guard of `_deepMerge`'s loop. -/
def protoKey (k : String) : Bool :=
  k == "__proto__" || k == "constructor" || k == "prototype"

mutual

/-- The `for (const k of Object.keys(b))` loop of `_deepMerge`, merging the
entries `be` of the patch into the entries `ae` of the base. -/
def mergeEntries : List (String × Doc) → List (String × Doc) → List (String × Doc)
  | ae, [] => ae
  | ae, (k, bv) :: rest =>
      if protoKey k then mergeEntries ae rest
      else mergeEntries (assocSet ae k (mergeValue (assocGet ae k) bv)) rest
termination_by _ l => sizeOf l

/-- The value `_deepMerge`'s loop stores at a non-proto patch key, as a
function of the base's value there (`none` = undefined) and the patch's
value.  For a mapping patch value the recursive call receives `a[k]` when
defined (`_deepMerge(null, bv)` and `_deepMerge(scalar-or-array, bv)` both
return a clone of `bv`) and `{}` when `a[k]` is undefined; any other patch
value is stored (cloned) as is. -/
def mergeValue : Option Doc → Doc → Doc
  | some (.obj ave), .obj bve => .obj (mergeEntries ave bve)
  | some _, .obj bve => .obj bve
  | none, .obj bve => .obj (mergeEntries [] bve)
  | _, bv => bv
termination_by _ bv => sizeOf bv

end

/-- `_deepMerge(a, b)` for defined `b`.  Returns `none` in the single case
where the source throws: `a` a mapping and `b` `null`, where the loop hits
`Object.keys(null)` (a `TypeError` in JS). -/
def deepMerge : Doc → Doc → Option Doc
  | .null, b => some b
  | .obj ae, .obj be => some (.obj (mergeEntries ae be))
  | .obj _, .null => none
  | _, b => some b

theorem mergeEntries_assocGet_proto (k : String) (hk : protoKey k = true) :
    ∀ (be ae : List (String × Doc)),
      assocGet (mergeEntries ae be) k = assocGet ae k := by
  intro be
  induction be with
  | nil => intro ae; rw [mergeEntries]
  | cons hd rest ih =>
      intro ae
      obtain ⟨k', bv⟩ := hd
      by_cases hp : protoKey k' = true
      · rw [mergeEntries, if_pos hp]; exact ih ae
      · rw [mergeEntries, if_neg hp]
        have hne : k' ≠ k := fun he => hp (he ▸ hk)
        rw [ih, assocGet_assocSet_ne _ _ _ _ hne]

theorem mergeEntries_assocGet_absent (k : String) :
    ∀ (be ae : List (String × Doc)), k ∉ be.map Prod.fst →
      assocGet (mergeEntries ae be) k = assocGet ae k := by
  intro be
  induction be with
  | nil => intro ae _; rw [mergeEntries]
  | cons hd rest ih =>
      intro ae hk
      obtain ⟨k', bv⟩ := hd
      simp only [List.map_cons, List.mem_cons] at hk
      push_neg at hk
      by_cases hp : protoKey k' = true
      · rw [mergeEntries, if_pos hp]; exact ih ae hk.2
      · rw [mergeEntries, if_neg hp]
        rw [ih _ hk.2, assocGet_assocSet_ne _ _ _ _ (fun h => hk.1 h.symm)]

theorem mergeEntries_assocGet (k : String) (hk : protoKey k = false) :
    ∀ (be ae : List (String × Doc)), (be.map Prod.fst).Nodup →
      assocGet (mergeEntries ae be) k =
        match assocGet be k with
        | none => assocGet ae k
        | some bv => some (mergeValue (assocGet ae k) bv) := by
  intro be
  induction be with
  | nil => intro ae _; rw [mergeEntries]; simp [assocGet]
  | cons hd rest ih =>
      intro ae hnd
      obtain ⟨k', bv⟩ := hd
      simp only [List.map_cons, List.nodup_cons] at hnd
      by_cases he : k' = k
      · subst he
        rw [mergeEntries, if_neg (by simp [hk]), assocGet, if_pos rfl]
        rw [mergeEntries_assocGet_absent _ _ _ hnd.1, assocGet_assocSet_self]
      · by_cases hp : protoKey k' = true
        · rw [mergeEntries, if_pos hp, assocGet, if_neg he]
          exact ih ae hnd.2
        · rw [mergeEntries, if_neg hp, assocGet, if_neg he]
          rw [ih _ hnd.2, assocGet_assocSet_ne _ _ _ _ he]

/-! ## `_computeTopLevelChanges` (part_005 lines 826-835)

```js
const keys = new Set([...Object.keys(oldObj || {}), ...Object.keys(newObj || {})]);
for (const k of keys) { ... if (!this._deepEqual(a, b)) out[k] = {old, new}; }
```
`Object.keys(x || {})` on a falsy root (`null`, `false`, `0`, `""`) sees
`{}`; on an array it yields the index keys; on a nonempty string the
character index keys; on any other scalar (boxed) no keys at all. -/

/-- `Object.keys(x || {})` for a document root. -/
def topKeys : Doc → List String
  | .obj es => es.map Prod.fst
  | .arr xs => (List.range xs.length).map toString
  | .str s => (List.range s.length).map toString
  | _ => []

/-- Decimal digit string to `Nat` (structural model of `String.toNat?`,
kernel-evaluable). -/
def strToNat? (s : String) : Option Nat :=
  if s.data ≠ [] && s.data.all Char.isDigit then
    some (s.data.foldl (fun n c => n * 10 + (c.toNat - 48)) 0)
  else none

/-- A canonical JS array/string index: `k` parses to `n` and round-trips
(`arr["01"]` is `undefined` while `arr["1"]` is the element). -/
def canonIndex (k : String) : Option Nat :=
  match strToNat? k with
  | some n => if toString n = k then some n else none
  | none => none

/-- `(x || {})[k]` for a document root (`none` = undefined).  Own properties
carrying JSON values are modelled exactly: a mapping's entries, an array's
canonical-index elements and its own (non-enumerable) `length`, and a
nonempty string's character-index keys and own `length` — so e.g.
`([])["length"]` is `0` and `("ab")["length"]` is `2`, while an empty string
is falsy and the lookup runs on `{}`.  Lookups JS resolves through the
prototype chain (inherited methods, the `__proto__` accessor) yield
non-JSON exotica and are modelled as `undefined`. -/
def topIndex : Doc → String → Option Doc
  | .obj es, k => assocGet es k
  | .arr xs, k =>
      if k = "length" then some (.num xs.length)
      else
        match canonIndex k with
        | some n => xs.get? n
        | none => none
  | .str s, k =>
      if s = "" then none
      else if k = "length" then some (.num s.length)
      else
        match canonIndex k with
        | some n => (s.data.get? n).map (fun c => .str (String.mk [c]))
        | none => none
  | _, _ => none

/-- `_deepEqual` applied to possibly-undefined operands: `undefined === undefined`
is `true`; `undefined == null` short-circuits to `undefined === x`, false for
every defined `x` (including `null`). -/
def optDeepEqual : Option Doc → Option Doc → Bool
  | none, none => true
  | some a, some b => deepEqualB a b
  | _, _ => false

/-- JS `Set` union: first-occurrence insertion order. -/
def setUnion (ks : List String) : List String :=
  ks.foldl (fun acc k => if k ∈ acc then acc else acc ++ [k]) []

/-- `_computeTopLevelChanges(oldObj, newObj)`: the per-top-level-key diff
`{k: {old, new}}` as an ordered list. -/
def computeTopLevelChanges (a b : Doc) : List (String × Option Doc × Option Doc) :=
  (setUnion (topKeys a ++ topKeys b)).filterMap (fun k =>
    if optDeepEqual (topIndex a k) (topIndex b k) then none
    else some (k, topIndex a k, topIndex b k))

/-! ## Events and `_emitSequential` (part_005 lines 418-440 and 794-824)

An `Event` carries the fields `_makeEvent` installs.  This revision's events
expose `defaultPrevented` (read by the schedulers) — the legacy `_prevented`
field checked in a few `legacyBefore._prevented` disjuncts is never written
by `_makeEvent` here, so those disjuncts are constantly false and are
modelled as such.  Listener-error records (`evt._listenerError`) are tallied
alongside dispatch; hooks observing the `_listenerError` array of earlier
hooks are outside the model. -/

structure Event where
  type : String
  op : String
  oldData : Doc
  newData : Doc
  defaultPrevented : Bool
  chainPrevented : Bool
  result : Option Doc
  source : Option String
  changes : List (String × Option Doc × Option Doc)
deriving Repr, DecidableEq

/-- `_makeEvent(type, op, oldData, newData)`. -/
def makeEvent (ty opn : String) (old new : Doc) : Event :=
  { type := ty, op := opn, oldData := old, newData := new,
    defaultPrevented := false, chainPrevented := false, result := none,
    source := none, changes := [] }

/-- A registered hook: it receives the event and returns the event's
(possibly mutated) state, plus `true` when the hook threw. -/
abbrev Listener := Event → Event × Bool

/-- One iteration of `_emitSequential`'s listener loop: call the listener on
the current event state; if it threw, push a listener-error record
(modelled as the running tally). -/
def emitStep (acc : Event × Nat) (l : Listener) : Event × Nat :=
  let r := l acc.1
  (r.1, acc.2 + (if r.2 then 1 else 0))

/-- `_emitSequential(name, evt)` restricted to the listeners registered for
`name`: invoke each listener in registration order, awaiting it; a throwing
listener is caught (`console.error` + `evt._listenerError.push(...)`) and
dispatch continues with the remaining listeners.  Returns the dispatched
event and the number of listener-error records pushed. -/
def emitSeq (ls : List Listener) (e : Event) : Event × Nat :=
  ls.foldl emitStep (e, 0)

/-- The hook registry: `this._ee.listeners(name)`. -/
abbrev Registry := String → List Listener

/-- A registry with no hooks registered. -/
def emptyReg : Registry := fun _ => []

/-- Replace the listener list registered for one event name. -/
def regUpdate (reg : Registry) (name : String) (ls : List Listener) : Registry :=
  fun n => if n = name then ls else reg n

/-- A hook body that calls `evt.setResult(v)` and returns: `_result := v`,
and `defaultPrevented := true` except for `change`/`error` events
(part_005 line 814). -/
def setResultHook (v : Doc) : Listener := fun e =>
  ({ e with
      result := some v,
      defaultPrevented :=
        if e.type = "change" ∨ e.type = "error" then e.defaultPrevented else true },
   false)

theorem emitSeq_go (ls : List Listener) (e : Event) (n : Nat) :
    List.foldl emitStep (e, n) ls = ((emitSeq ls e).1, n + (emitSeq ls e).2) := by
  induction ls generalizing e n with
  | nil => simp [emitSeq]
  | cons l rest ih =>
      simp only [emitSeq, List.foldl_cons, emitStep, Nat.zero_add]
      rw [ih ((l e).1) (n + (if (l e).2 then 1 else 0)),
          ih ((l e).1) (if (l e).2 then 1 else 0)]
      simp [Nat.add_assoc]

theorem emitSeq_append (xs ys : List Listener) (e : Event) :
    emitSeq (xs ++ ys) e =
      ((emitSeq ys (emitSeq xs e).1).1,
        (emitSeq xs e).2 + (emitSeq ys (emitSeq xs e).1).2) := by
  have h : emitSeq (xs ++ ys) e
      = List.foldl emitStep ((emitSeq xs e).1, (emitSeq xs e).2) ys := by
    rw [emitSeq, List.foldl_append]; rfl
  rw [h, emitSeq_go]

/-! ## `_debouncedWrite` (part_005 lines 493-606)

Submission side (lines 495-500): the first submission inside a window
creates `this._pendingWrite`; each later submission inside the same window
overwrites `pending.data` with its own payload (last-write-wins) and
overwrites `pending.opts` (the `opts || ...` fallback never fires: every
call site passes an object, which is truthy), and pushes its
resolver/rejecter.

Flush side (lines 503-603): when the timer fires, the pending intent is
detached and its body is appended to the serialized chain. -/

structure WOpts where
  replace : Bool
  op : Option String
deriving Repr, DecidableEq

structure PendingWrite where
  data : Option Doc
  opts : WOpts
  callers : Nat
deriving Repr, DecidableEq

/-- `write(d)` submits `(d, {})`. -/
def writeCall (d : Doc) : Option Doc × WOpts :=
  (some d, { replace := false, op := none })

/-- `replace(d)` submits `(d, { replace: true, op: 'replace' })`. -/
def replaceCall (d : Doc) : Option Doc × WOpts :=
  (some d, { replace := true, op := some "replace" })

/-- `resetDefault()` submits a clone of `opts.defaultData` with
`{ replace: true, op: 'resetDefault' }` (part_005 lines 191-195). -/
def resetDefaultCall (defaultData : Doc) : Option Doc × WOpts :=
  (some defaultData, { replace := true, op := some "resetDefault" })

/-- One `_debouncedWrite(incomingData, opts)` submission merging into the
pending write intent. -/
def submitWrite (pw : Option PendingWrite) (d : Option Doc) (o : WOpts) :
    PendingWrite :=
  match pw with
  | none => { data := d, opts := o, callers := 1 }
  | some p => { data := d, opts := o, callers := p.callers + 1 }

/-- A burst of submissions all landing inside one debounce window. -/
def submitAll (subs : List (Option Doc × WOpts)) : Option PendingWrite :=
  subs.foldl (fun pw s => some (submitWrite pw s.1 s.2)) none

/-- The per-instance state touched by the modelled operations: the runtime
document (`this._low.data`), the backing file contents, the watcher's disk
snapshot (`this._lastOnDiskSnapshot`), and the self-write suppression
flags. -/
structure DBState where
  low : Doc
  disk : Doc
  snapshot : Doc
  isWriting : Bool
  suppressWatch : Bool
deriving Repr, DecidableEq

/-- The proposed document computed at the top of the flush body (lines
510-516): an undefined payload re-proposes the current data; a replace-mode
payload is cloned wholesale; otherwise the payload is deep-merged into a
clone of the current data.  `none` is the propagating `_deepMerge`
`TypeError`, caught by the body's catch which rejects every caller. -/
def writeProposal (low : Doc) (p : PendingWrite) : Option Doc :=
  match p.data with
  | none => some low
  | some d => if p.opts.replace then some d else deepMerge low d

/-- Observable outcome of one flushed write intent. -/
structure WriteOutcome where
  st : DBState
  writes : Nat
  resolvedWith : Option Doc
  resolvedCount : Nat
  rejectedCount : Nat
  changeCount : Nat
  changeSource : Option String
  errors : Nat
deriving Repr, DecidableEq

/-- The error tally contributed by the optional compatibility pre-`write`
emission of a replace operation. -/
def lwpErrors : Option (Event × Nat) → Nat
  | some x => x.2
  | none => 0

/-- The cancellation contribution of the optional compatibility pre-`write`
emission (line 541, third disjunct). -/
def lwpPrevented : Option (Event × Nat) → Bool
  | some x => x.1.defaultPrevented
  | none => false

/-- The override-result fallback chain below the primary event (line 542):
the compatibility `write` event's `_result` when that event exists and set
one, else `legacyBefore._result`. -/
def lwpResult : Option (Event × Nat) → Option Doc → Option Doc
  | some x, lb => (match x.1.result with | some v => some v | none => lb)
  | none, lb => lb

/-- The tail of `_debouncedWrite`'s flush body after the pre-write
emissions (lines 541-603): cancellation check, persist-or-skip, post-write
emissions, diff and `change` notification, resolution of every coalesced
caller. -/
def flushFinish (afterL changeL : List Listener) (st : DBState)
    (p : PendingWrite) (opName : String) (prim before : Event × Nat)
    (lwp : Option (Event × Nat)) : WriteOutcome :=
  let oldData := st.low
  let cancelled := prim.1.defaultPrevented || lwpPrevented lwp
  if cancelled then
    let chosen :=
      match prim.1.result with
      | some v => some v
      | none => lwpResult lwp before.1.result
    let afterCompat := emitSeq afterL
      (makeEvent "afterwrite" opName oldData prim.1.newData)
    { st := st, writes := 0, resolvedWith := chosen,
      resolvedCount := p.callers, rejectedCount := 0, changeCount := 0,
      changeSource := none,
      errors := prim.2 + before.2 + lwpErrors lwp + afterCompat.2 }
  else
    let finalData := prim.1.newData
    -- lock acquired; _isWriting/_suppressWatchEvents held during the
    -- physical write and cleared in the finally block; lock released
    let st2 : DBState :=
      { st with low := finalData, disk := finalData, snapshot := finalData }
    let legacyAfter := emitSeq afterL
      (makeEvent "afterwrite" opName oldData finalData)
    let changes := computeTopLevelChanges oldData finalData
    if changes = [] then
      { st := st2, writes := 1, resolvedWith := none,
        resolvedCount := p.callers, rejectedCount := 0, changeCount := 0,
        changeSource := none,
        errors := prim.2 + before.2 + lwpErrors lwp + legacyAfter.2 }
    else
      let changeEvt := emitSeq changeL
        ({ makeEvent "change" opName oldData finalData with
            changes := changes, source := some "internal" })
      { st := st2, writes := 1, resolvedWith := none,
        resolvedCount := p.callers, rejectedCount := 0, changeCount := 1,
        changeSource := some "internal",
        errors := prim.2 + before.2 + lwpErrors lwp + legacyAfter.2 + changeEvt.2 }

/-- The flush body of `_debouncedWrite` (the `setTimeout` callback's chained
async block, lines 508-603), dispatched at the top level of the chain where
`_canEmit()` holds and the in-process lock acquisition is uncontended.

The cancellation test (line 541) reads `legacyBefore._prevented`, a field
this revision's `_makeEvent` never sets, so that disjunct is constantly
false; the post-hook `proposed` update (lines 551-559) always takes the
first branch because `primaryEvt.newData` is always defined. -/
def flushWrite (reg : Registry) (st : DBState) (p : PendingWrite) : WriteOutcome :=
  let oldData := st.low
  match writeProposal st.low p with
  | none =>
      { st := st, writes := 0, resolvedWith := none, resolvedCount := 0,
        rejectedCount := p.callers, changeCount := 0, changeSource := none,
        errors := 0 }
  | some proposed =>
      let opName := p.opts.op.getD (if p.opts.replace then "replace" else "write")
      let primaryType := if p.opts.replace then "replace" else "write"
      let prim := emitSeq (reg primaryType) (makeEvent primaryType opName oldData proposed)
      let before := emitSeq (reg "beforewrite") (makeEvent "beforewrite" opName oldData proposed)
      -- compatibility: a replace operation also emits a `write` pre-event
      let lwp : Option (Event × Nat) :=
        if primaryType = "write" then none
        else some (emitSeq (reg "write") (makeEvent "write" opName oldData prim.1.newData))
      flushFinish (reg "afterwrite") (reg "change") st p opName prim before lwp

/-! ## `_handleExternalFileChange` (part_005 lines 657-705)

One watcher-triggered reconciliation.  `await this._low.read()` re-reads the
backing file into `this._low.data`; the freshly read document is compared
against `this._lastOnDiskSnapshot` with `_deepEqual`. -/

/-- An existing lock-marker file: parsed `ts` (when its content is JSON with
a numeric `ts`) and the file's mtime. -/
structure LockMarker where
  ts : Option Nat
  mtime : Nat
deriving Repr, DecidableEq

/-- The removal (staleness) test `_acquireLock` applies to an existing
marker at time `now`: stale parsed timestamp OR stale mtime — the mtime
branch runs even when a fresh `ts` was parsed.  (Nat subtraction truncates
at 0, matching the JS comparison: a negative difference is not
`> staleMs`.) -/
def markerStale (staleMs now : Nat) (m : LockMarker) : Bool :=
  (match m.ts with
   | some t => decide (now - t > staleMs)
   | none => false)
  || decide (now - m.mtime > staleMs)

inductive AcqResult where
  | acquired (waited : Nat)
  | timedOut (waited : Nat)
deriving Repr, DecidableEq

/-- The `_acquireLock` retry loop over the marker state and the elapsed wait
`e`.  When no marker exists the exclusive create succeeds. -/
def acquireLoop (staleMs timeout step start : Nat) :
    Option LockMarker → Nat → AcqResult
  | none, e => .acquired e
  | some m, e =>
      if markerStale staleMs (start + e) m then
        -- stale: unlink and retry immediately
        acquireLoop staleMs timeout step start none e
      else if e > timeout then
        .timedOut e
      else
        acquireLoop staleMs timeout step start (some m) (e + max 10 step)
termination_by mk e => (match mk with | some _ => 1 | none => 0) + 2 * (timeout + 1 - e)
decreasing_by
  all_goals simp_wf
  all_goals omega

/-! ## Token matcher: `_parseToTokens` (part_005 lines 963-1008) and
`findMatches` (lines 203-301)

The string-query tokenizer is the global regex
`/"([^\"]+)"|'([^']+)'|\/([^/]+)\/([gimsuy]*)|=([^\s,]+)|([^\s,]+)/g`:
at each position the alternatives are tried in order and unmatched
characters (whitespace, commas) are skipped.  Regex-literal tokens are not
modelled (the parse returns `none` when one occurs; no claim input contains
one). -/

structure Tok where
  token : String
  exactOnly : Bool
deriving Repr, DecidableEq

/-- A character the tokenizer's `[^\s,]` classes exclude (ASCII whitespace
and comma; the claim inputs are ASCII). -/
def isSepChar (c : Char) : Bool :=
  c = ' ' || c = ',' || c = '\t' || c = '\n' || c = '\r'

theorem dropWhileLenLe {α : Type} (p : α → Bool) (l : List α) :
    (l.dropWhile p).length ≤ l.length := by
  induction l with
  | nil => simp
  | cons a l ih =>
      by_cases h : p a
      · rw [List.dropWhile_cons_of_pos h]; simp; omega
      · rw [List.dropWhile_cons_of_neg h]

/-- Matching a closing delimiter with nonempty content: `"([^"]+)"` and the
like.  Returns the content and the remainder after the closing delimiter. -/
def splitClosed (q : Char) (cs : List Char) : Option (List Char × List Char) :=
  match cs.dropWhile (fun c => c ≠ q) with
  | [] => none
  | _ :: after =>
      if cs.takeWhile (fun c => c ≠ q) = [] then none
      else some (cs.takeWhile (fun c => c ≠ q), after)

theorem splitClosed_length (q : Char) (cs pre after : List Char)
    (h : splitClosed q cs = some (pre, after)) : after.length < cs.length := by
  have hd := dropWhileLenLe (fun c => decide (c ≠ q)) cs
  unfold splitClosed at h
  split at h
  next => simp at h
  next x rest heq =>
    split at h
    next => simp at h
    next =>
      rw [Option.some.injEq, Prod.mk.injEq] at h
      have h2 := h.2
      subst h2
      rw [heq] at hd
      simp only [List.length_cons] at hd
      omega

/-- The scanner for the tokenizer regex.  Returns `none` when the
regex-literal alternative matches. -/
def scanTokens : List Char → Option (List Tok)
  | [] => some []
  | c :: cs =>
      if isSepChar c then
        -- no alternative matches at a separator; the global scan advances
        scanTokens cs
      else if c = '"' then
        match h : splitClosed '"' cs with
        | some (content, rest) =>
            (scanTokens rest).map (fun ts => ⟨String.mk content, false⟩ :: ts)
        | none =>
            -- the quoted alternative fails; the bare-word alternative
            -- matches starting at the quote character
            (scanTokens (cs.dropWhile (fun c => !(isSepChar c)))).map
              (fun ts => ⟨String.mk (c :: cs.takeWhile (fun c => !(isSepChar c))), false⟩ :: ts)
      else if c = '\'' then
        match h : splitClosed '\'' cs with
        | some (content, rest) =>
            (scanTokens rest).map (fun ts => ⟨String.mk content, false⟩ :: ts)
        | none =>
            (scanTokens (cs.dropWhile (fun c => !(isSepChar c)))).map
              (fun ts => ⟨String.mk (c :: cs.takeWhile (fun c => !(isSepChar c))), false⟩ :: ts)
      else if c = '/' then
        match h : splitClosed '/' cs with
        | some _ => none   -- regex-literal token: outside the model
        | none =>
            (scanTokens (cs.dropWhile (fun c => !(isSepChar c)))).map
              (fun ts => ⟨String.mk (c :: cs.takeWhile (fun c => !(isSepChar c))), false⟩ :: ts)
      else if c = '=' then
        match cs.takeWhile (fun c => !(isSepChar c)) with
        | [] =>
            -- `=([^\s,]+)` fails; the bare-word alternative matches `=` alone
            (scanTokens cs).map (fun ts => ⟨"=", false⟩ :: ts)
        | w =>
            (scanTokens (cs.dropWhile (fun c => !(isSepChar c)))).map
              (fun ts => ⟨String.mk w, true⟩ :: ts)
      else
        (scanTokens (cs.dropWhile (fun c => !(isSepChar c)))).map
          (fun ts => ⟨String.mk (c :: cs.takeWhile (fun c => !(isSepChar c))), false⟩ :: ts)
termination_by cs => cs.length
decreasing_by
  all_goals simp_wf
  all_goals first
    | omega
    | (have hsp := splitClosed_length _ _ _ _ h; omega)
    | (exact Nat.lt_succ_of_le (dropWhileLenLe _ _))

/-- A flag character of a JS regex literal. -/
def regexFlagChar (c : Char) : Bool :=
  c = 'g' || c = 'i' || c = 'm' || c = 's' || c = 'u' || c = 'y'

/-- Is there a `/` in the list whose suffix is all flag characters? -/
def regexTailAux : List Char → Bool
  | [] => false
  | c :: cs => (c = '/' && cs.all regexFlagChar) || regexTailAux cs

/-- `_normalizeTokenObject`'s test `^\/(.+)\/([gimsuy]*)$` on the trimmed
token. -/
def looksLikeRegexLiteral (s : String) : Bool :=
  match s.data with
  | '/' :: _ :: rest => regexTailAux rest
  | _ => false

/-- JS `String.prototype.trim` (structural; ASCII whitespace as in the claim
inputs). -/
def strTrim (s : String) : String :=
  String.mk (((s.data.dropWhile Char.isWhitespace).reverse.dropWhile
    Char.isWhitespace).reverse)

/-- JS `String.prototype.toLowerCase` (structural; ASCII case folding as in
the claim inputs). -/
def strLower (s : String) : String :=
  String.mk (s.data.map (fun c =>
    if 'A' ≤ c && c ≤ 'Z' then Char.ofNat (c.toNat + 32) else c))

/-- `_normalizeTokenObject` for a string token: trim, reject regex-looking
tokens (unmodelled), lowercase unless case-sensitive. -/
def normalizeTok (caseSensitive : Bool) (t : Tok) : Option Tok :=
  let s := strTrim t.token
  if looksLikeRegexLiteral s then none
  else some { token := if caseSensitive then s else strLower s, exactOnly := t.exactOnly }

/-- `_parseToTokens(query, cfg)` for a string query.  (The per-token
re-normalization `findMatches` performs before matching lowercases an
already-lowercased token — idempotent, hence omitted.) -/
def parseToTokens (caseSensitive : Bool) (query : String) : Option (List Tok) :=
  match scanTokens query.data with
  | none => none
  | some raw =>
      raw.foldr (fun t acc =>
        match normalizeTok caseSensitive t, acc with
        | some t', some l => some (t' :: l)
        | _, _ => none) (some [])

/-- The double-quote, backslash and brace characters (by code point, to
keep string literals plain). -/
def dquoteChar : Char := Char.ofNat 34

def backslashChar : Char := Char.ofNat 92

def obraceChar : Char := Char.ofNat 123

def cbraceChar : Char := Char.ofNat 125

def jsonQuote : String := String.mk [dquoteChar]

/-- Backslash/quote escaping inside a JSON string literal. -/
def jsonEscape (s : String) : String :=
  String.mk (s.data.foldr (fun c acc =>
    if c = dquoteChar then backslashChar :: c :: acc
    else if c = backslashChar then backslashChar :: c :: acc
    else c :: acc) [])

mutual

/-- `JSON.stringify` on the pure document model (structured leaves reaching
`tryMatchLeaf` are only the empty array and empty object; the full
definition is given for totality, with `"` and `\` escaping — other
escapes do not occur in the claims' inputs). -/
def jsonStringify : Doc → String
  | .null => "null"
  | .bool b => if b then "true" else "false"
  | .num n => toString n
  | .str s => jsonQuote ++ jsonEscape s ++ jsonQuote
  | .arr xs => "[" ++ jsonList xs ++ "]"
  | .obj es => String.mk [obraceChar] ++ jsonEntries es ++ String.mk [cbraceChar]

def jsonList : List Doc → String
  | [] => ""
  | [x] => jsonStringify x
  | x :: y :: xs => jsonStringify x ++ "," ++ jsonList (y :: xs)

def jsonEntries : List (String × Doc) → String
  | [] => ""
  | [(k, v)] => jsonQuote ++ jsonEscape k ++ jsonQuote ++ ":" ++ jsonStringify v
  | (k, v) :: e :: es =>
      jsonQuote ++ jsonEscape k ++ jsonQuote ++ ":" ++ jsonStringify v ++ ","
        ++ jsonEntries (e :: es)

end

/-- The leaf stringification in `tryMatchLeaf` (lines 236-238):
`String(leafVal)` for nullish values, `JSON.stringify` for values still
structured (the walk only passes the empty array/object), `String(...)`
otherwise. -/
def leafString : Doc → String
  | .null => "null"
  | .bool b => if b then "true" else "false"
  | .num n => toString n
  | .str s => s
  | .arr xs => jsonStringify (.arr xs)
  | .obj es => jsonStringify (.obj es)

/-- `hay.includes(needle)`. -/
def listInfix (needle : List Char) : List Char → Bool
  | [] => decide (needle = [])
  | c :: cs => needle.isPrefixOf (c :: cs) || listInfix needle cs

/-- JS `String.prototype.includes`. -/
def strIncludes (hay needle : String) : Bool :=
  listInfix needle.data hay.data

/-- The accumulators of `findMatches`' walk: `partial` and `exact` result
arrays (here `subMatches`/`exactMatches`) and the `seen` key set. -/
structure SearchState where
  subMatches : List (String × Doc)
  exactMatches : List (String × Doc)
  seen : List String
deriving Repr, DecidableEq

def matchCount (st : SearchState) : Nat :=
  st.subMatches.length + st.exactMatches.length

/-- The non-regex token loop of `tryMatchLeaf` (lines 240-261): per token,
bail out at the limit; exact string equality pushes an exact match (keyed by
`e:origin:token` in `seen`); otherwise, for non-exact-only tokens, a
substring hit pushes a `partial` match (keyed by `p:origin:token`). -/
def tryMatchTokens (limit : Nat) (origin : String) (leafVal : Doc)
    (norm : String) : List Tok → SearchState → SearchState
  | [], st => st
  | tk :: rest, st =>
      if matchCount st ≥ limit then st
      else
        let keyExact := "e:" ++ origin ++ ":" ++ tk.token
        let keyPartial := "p:" ++ origin ++ ":" ++ tk.token
        let st' :=
          if norm = tk.token then
            if keyExact ∈ st.seen then st
            else { st with
                    exactMatches := st.exactMatches ++ [(origin, leafVal)],
                    seen := st.seen ++ [keyExact] }
          else if tk.exactOnly then st
          else if strIncludes norm tk.token then
            if keyPartial ∈ st.seen then st
            else { st with
                    subMatches := st.subMatches ++ [(origin, leafVal)],
                    seen := st.seen ++ [keyPartial] }
          else st
        tryMatchTokens limit origin leafVal norm rest st'

/-- `tryMatchLeaf(origin, leafVal)`: stringify and normalize the leaf, run
the token loop, and report whether the result cap is reached. -/
def tryMatchLeaf (cs : Bool) (limit : Nat) (toks : List Tok)
    (origin : String) (leafVal : Doc) (st : SearchState) : SearchState × Bool :=
  let leafStr := leafString leafVal
  let norm := if cs then leafStr else strLower leafStr
  let st' := tryMatchTokens limit origin leafVal norm toks st
  (st', matchCount st' ≥ limit)

/-- `curPath || '(root)'`. -/
def orRoot (curPath : String) : String :=
  if curPath = "" then "(root)" else curPath

mutual

/-- The depth-first walk of `findMatches` (lines 265-296).  The boolean
result is the walk's early-stop signal. -/
def walkD (cs searchKeys : Bool) (limit : Nat) (toks : List Tok) :
    Doc → String → SearchState → SearchState × Bool
  | node, curPath, st =>
      if matchCount st ≥ limit then (st, true)
      else
        match node with
        | .null => tryMatchLeaf cs limit toks (orRoot curPath) .null st
        | .arr [] => tryMatchLeaf cs limit toks (orRoot curPath) (.arr []) st
        | .arr (x :: xs) =>
            let r := walkItems cs searchKeys limit toks (x :: xs) (orRoot curPath) 0 st
            if r.2 then r else (r.1, matchCount r.1 ≥ limit)
        | .obj [] => tryMatchLeaf cs limit toks (orRoot curPath) (.obj []) st
        | .obj (e :: es) =>
            let r := walkEntries cs searchKeys limit toks (e :: es) curPath st
            if r.2 then r else (r.1, matchCount r.1 ≥ limit)
        | d => tryMatchLeaf cs limit toks (orRoot curPath) d st

/-- The array-element loop: `walk(node[i], `${curPath||'(root)'}[${i}]`)`,
propagating an early stop. -/
def walkItems (cs searchKeys : Bool) (limit : Nat) (toks : List Tok) :
    List Doc → String → Nat → SearchState → SearchState × Bool
  | [], _, _, st => (st, false)
  | x :: xs, base, i, st =>
      let r := walkD cs searchKeys limit toks x (base ++ "[" ++ toString i ++ "]") st
      if r.2 then r
      else walkItems cs searchKeys limit toks xs base (i + 1) r.1

/-- The object-key loop: optional key matching (`#key` origins) followed by
the recursive walk of each value. -/
def walkEntries (cs searchKeys : Bool) (limit : Nat) (toks : List Tok) :
    List (String × Doc) → String → SearchState → SearchState × Bool
  | [], _, st => (st, false)
  | (k, v) :: es, curPath, st =>
      let childPath := if curPath = "" then k else curPath ++ "." ++ k
      let afterKey :=
        if searchKeys then
          tryMatchLeaf cs limit toks (childPath ++ "#key") (.str k) st
        else (st, false)
      if afterKey.2 then (afterKey.1, true)
      else
        let r := walkD cs searchKeys limit toks v childPath afterKey.1
        if r.2 then r
        else walkEntries cs searchKeys limit toks es curPath r.1

end

/-- `findMatches(query, opts)` for a string query against the freshly read
document (`await this._low.read()`; the `snapshot` argument is the document
the adapter returned).  `none` when the query parses to a regex token
(unmodelled).  Result: `(partial, exact)` entry lists of
`(origin, match)`. -/
def findMatches (caseSensitive searchKeys : Bool) (maxMatches : Nat)
    (snapshot : Doc) (query : String) :
    Option (List (String × Doc) × List (String × Doc)) :=
  match parseToTokens caseSensitive query with
  | none => none
  | some [] => some ([], [])
  | some toks =>
      let limit := max 1 maxMatches
      let r := walkD caseSensitive searchKeys limit toks snapshot ""
        { subMatches := [], exactMatches := [], seen := [] }
      some (r.1.subMatches, r.1.exactMatches)

/-! # Claims -/

/-! ## C3 — findMatches on the example document -/

/-- The claim's document `{items:[{title:"Hello World"}, {title:"hello
again"}]}`. -/
def c3doc : Doc :=
  .obj [("items", .arr [.obj [("title", .str "Hello World")],
                        .obj [("title", .str "hello again")]])]

/-- C3 counterexample: `findMatches("=Hello World")` on the claim's
document.  The query tokenizes as the exact-only token `Hello` plus the
bare token `World` (`=([^\s,]+)` stops at whitespace), so the first title
leaf matches only through the partial `world` token: it is returned as the
sole PARTIAL match and the exact list is empty — against the claim's
"classified as exact". -/
theorem c3_counterexample :
    parseToTokens false "=Hello World" =
      some [⟨"hello", true⟩, ⟨"world", false⟩] ∧
    findMatches false false 1000 c3doc "=Hello World" =
      some ([("items[0].title", .str "Hello World")], []) := by
  constructor <;>
    (simp [findMatches, parseToTokens, scanTokens, isSepChar, splitClosed,
      walkD, walkItems, walkEntries, c3doc]; decide)

/-- C3 (amended): `findMatches("hello", {caseSensitive:false})` on
`{items:[{title:"Hello World"}, {title:"hello again"}]}` returns both title
leaves as partial matches and neither as exact; `findMatches("=Hello
World")` returns only the first title leaf, classified as PARTIAL (the
query parses as the exact-only token `Hello` plus the bare token `World`,
and the leaf matches only the partial `World` token) — not as exact. -/
theorem c3_amended_findMatches :
    findMatches false false 1000 c3doc "hello" =
      some ([("items[0].title", .str "Hello World"),
             ("items[1].title", .str "hello again")], []) ∧
    findMatches false false 1000 c3doc "=Hello World" =
      some ([("items[0].title", .str "Hello World")], []) := by
  constructor <;>
    (simp [findMatches, parseToTokens, scanTokens, isSepChar, splitClosed,
      walkD, walkItems, walkEntries, c3doc]; decide)

/-! ## C6 — lock acquisition and staleness -/

/-- Modelled from the spec's words, for comparison with the code: "if its
recorded timestamp (or, failing that, its filesystem modification time) is
older than a configured staleness threshold" — the modification time
consulted only when no timestamp was parsed. -/
def specMarkerStale (staleMs now : Nat) (m : LockMarker) : Bool :=
  match m.ts with
  | some t => decide (now - t > staleMs)
  | none => decide (now - m.mtime > staleMs)

/-- C6 counterexample: a marker with a perfectly fresh recorded timestamp
but an ancient mtime.  By the claim's staleness reading the marker is not
stale, so acquisition should sleep the retry delay and retry; the code
checks the mtime even when a fresh timestamp was parsed, removes the marker
and acquires immediately with zero wait. -/
theorem c6_counterexample :
    specMarkerStale 10000 20000 ⟨some 20000, 0⟩ = false ∧
    markerStale 10000 20000 ⟨some 20000, 0⟩ = true ∧
    acquireLoop 10000 5000 50 20000 (some ⟨some 20000, 0⟩) 0 = .acquired 0 := by
  refine ⟨by decide, by decide, ?_⟩
  simp [acquireLoop, markerStale]

theorem acquireLoop_fresh_timeout (staleMs timeout step start : Nat)
    (m : LockMarker)
    (hfresh : ∀ e, e ≤ timeout + max 10 step →
      markerStale staleMs (start + e) m = false) :
    ∀ n e, timeout + 1 - e ≤ n → e ≤ timeout + max 10 step →
      ∃ w, acquireLoop staleMs timeout step start (some m) e = .timedOut w ∧
        timeout < w ∧ w ≤ timeout + max 10 step ∧
        ∃ k, w = e + k * max 10 step := by
  intro n
  induction n with
  | zero =>
      intro e h0 hle
      have hgt : timeout < e := by omega
      refine ⟨e, ?_, hgt, hle, 0, by omega⟩
      rw [acquireLoop, if_neg (by simp [hfresh e hle]), if_pos hgt]
  | succ n ih =>
      intro e hn hle
      by_cases hgt : timeout < e
      · refine ⟨e, ?_, hgt, hle, 0, by omega⟩
        rw [acquireLoop, if_neg (by simp [hfresh e hle]), if_pos hgt]
      · have hle' : e + max 10 step ≤ timeout + max 10 step := by omega
        obtain ⟨w, hw, h1, h2, k, hk⟩ := ih (e + max 10 step) (by omega) hle'
        refine ⟨w, ?_, h1, h2, k + 1, ?_⟩
        · rw [acquireLoop, if_neg (by simp [hfresh e hle]), if_neg (by omega)]
          exact hw
        · rw [Nat.succ_mul]; omega

/-- C6 (amended): acquisition finding an existing marker removes it and
succeeds immediately (zero additional wait) whenever EITHER the recorded
timestamp OR the filesystem mtime is older than the staleness threshold —
the mtime is checked even when a fresh timestamp was parsed; if neither
ever indicates staleness, acquisition sleeps the (normalized, `≥ 10 ms`)
retry delay between attempts and fails with a timeout error at the first
check after the cumulative wait exceeds the configured timeout. -/
theorem c6_amended_lock_staleness :
    (∀ staleMs timeout step start e m,
      markerStale staleMs (start + e) m = true →
      acquireLoop staleMs timeout step start (some m) e = .acquired e) ∧
    (∀ staleMs timeout step start m,
      (∀ e, e ≤ timeout + max 10 step →
        markerStale staleMs (start + e) m = false) →
      ∃ w, acquireLoop staleMs timeout step start (some m) 0 = .timedOut w ∧
        timeout < w ∧ w ≤ timeout + max 10 step ∧ ∃ k, w = k * max 10 step) := by
  constructor
  · intro staleMs timeout step start e m h
    rw [acquireLoop, if_pos h, acquireLoop]
  · intro staleMs timeout step start m hfresh
    obtain ⟨w, hw, h1, h2, k, hk⟩ :=
      acquireLoop_fresh_timeout staleMs timeout step start m hfresh
        (timeout + 1) 0 (by omega) (by omega)
    exact ⟨w, hw, h1, h2, k, by omega⟩

/-- Witness for `c6_amended_lock_staleness`: a stale marker acquired with
zero wait, and a never-stale marker timing out after sleeping in
retry-delay steps. -/
theorem c6_witness :
    (markerStale 1000 (2000 + 0) ⟨some 0, 0⟩ = true) ∧
    acquireLoop 1000 5000 50 2000 (some ⟨some 0, 0⟩) 0 = .acquired 0 ∧
    (∀ e, e ≤ 100 + max 10 50 →
      markerStale 10000 (0 + e) ⟨some 0, 0⟩ = false) ∧
    ∃ w, acquireLoop 10000 100 50 0 (some ⟨some 0, 0⟩) 0 = .timedOut w ∧
      100 < w ∧ w ≤ 100 + max 10 50 ∧ ∃ k, w = k * max 10 50 :=
  ⟨by decide,
   c6_amended_lock_staleness.1 1000 5000 50 2000 0 ⟨some 0, 0⟩ (by decide),
   by intro e he; simp [markerStale]; omega,
   c6_amended_lock_staleness.2 10000 100 50 0 ⟨some 0, 0⟩
     (by intro e he; simp [markerStale]; omega)⟩

/-! ## C4 — watcher reconciliation -/

/-- C5 counterexample input: a patch whose only key is `__proto__`. -/
def protoPatch : List (String × Doc) := [("__proto__", Doc.num 1)]

/-- C5: the claim "each key present only in the patch appears with the
patch's (cloned) value" fails at base `{}` and patch `{__proto__: 1}`:
`_deepMerge` skips the `__proto__`/`constructor`/`prototype` keys, so the
key present only in the patch does not appear in the result. -/
theorem c5_counterexample :
    deepMerge (.obj []) (.obj protoPatch) = some (.obj []) ∧
    assocGet protoPatch "__proto__" = some (.num 1) ∧
    assocGet ([] : List (String × Doc)) "__proto__" = none ∧
    assocGet (mergeEntries [] protoPatch) "__proto__" = none := by
  refine ⟨?_, rfl, rfl, ?_⟩ <;>
    simp [deepMerge, mergeEntries, mergeValue, protoKey, protoPatch, assocGet]

/-- C5 (amended): for mapping base and patch (duplicate-free patch keys, as
for every JS object), `_deepMerge` merges entry-wise with these key-level
rules — except at the guarded keys `__proto__`/`constructor`/`prototype`,
which are skipped: (i) a key only in the patch appears with the patch's
value, where a mapping patch value additionally has guarded keys
recursively dropped at merged levels; (ii) a key in both whose two values
are mappings is merged recursively; (iii) a key whose patch value is a
scalar or sequence takes the patch value wholesale, and likewise (iii') a
key whose base value is not a mapping takes a mapping patch value
wholesale; and (iv) replace mode bypasses merge entirely, proposing the
payload as the new root. -/
theorem c5_amended_deepMerge_key_semantics (ae be : List (String × Doc))
    (hnd : (be.map Prod.fst).Nodup) :
    deepMerge (.obj ae) (.obj be) = some (.obj (mergeEntries ae be)) ∧
    (∀ k, protoKey k = false →
      ((∀ bv, assocGet ae k = none → assocGet be k = some bv →
          assocGet (mergeEntries ae be) k =
            some (match bv with
                  | .obj bve => .obj (mergeEntries [] bve)
                  | _ => bv)) ∧
       (∀ ake bke, assocGet ae k = some (.obj ake) →
          assocGet be k = some (.obj bke) →
          assocGet (mergeEntries ae be) k = some (.obj (mergeEntries ake bke))) ∧
       (∀ bv, assocGet be k = some bv → (∀ bve, bv ≠ .obj bve) →
          assocGet (mergeEntries ae be) k = some bv) ∧
       (∀ av bke, assocGet ae k = some av → (∀ ave, av ≠ .obj ave) →
          assocGet be k = some (.obj bke) →
          assocGet (mergeEntries ae be) k = some (.obj bke)))) ∧
    (∀ (low d : Doc) (o : WOpts) (n : Nat), o.replace = true →
      writeProposal low { data := some d, opts := o, callers := n } = some d) := by
  refine ⟨rfl, ?_, ?_⟩
  · intro k hk
    have hmain := mergeEntries_assocGet k hk be ae hnd
    refine ⟨?_, ?_, ?_, ?_⟩
    · intro bv ha hb
      rw [hmain, hb, ha]
      cases bv <;> simp [mergeValue]
    · intro ake bke ha hb
      rw [hmain, hb, ha]
      simp [mergeValue]
    · intro bv hb hnotobj
      rw [hmain, hb]
      cases hbv : bv with
      | obj bve => exact absurd hbv (hnotobj bve)
      | _ => subst hbv; cases ha : assocGet ae k <;> simp [mergeValue]
    · intro av bke ha hnotobj hb
      rw [hmain, hb, ha]
      cases hav : av with
      | obj ave => exact absurd hav (hnotobj ave)
      | _ => subst hav; simp [mergeValue]
  · intro low d o n ho
    simp [writeProposal, ho]

/-- Witness for `c5_amended_deepMerge_key_semantics` at a concrete
duplicate-free patch. -/
theorem c5_amended_witness :
    ((([("y", Doc.num 2), ("z", Doc.num 3)] : List (String × Doc)).map
        Prod.fst).Nodup) ∧
    (deepMerge (.obj [("x", Doc.num 1)])
        (.obj [("y", Doc.num 2), ("z", Doc.num 3)]) =
      some (.obj (mergeEntries [("x", Doc.num 1)]
        [("y", Doc.num 2), ("z", Doc.num 3)]))) :=
  ⟨by decide,
   (c5_amended_deepMerge_key_semantics [("x", Doc.num 1)]
      [("y", Doc.num 2), ("z", Doc.num 3)] (by decide)).1⟩

/-! ## C10 — prototype-pollution guard in deep-merge -/

/-- C10 counterexample: with a non-mapping base, `_deepMerge` returns a
clone of the whole patch, `__proto__` keys included — the guard only runs
when both sides are mappings.  At base `5` and patch `{__proto__: 1}`, the
result owns a `__proto__` entry that came from the patch while the base had
none. -/
theorem c10_counterexample :
    deepMerge (.num 5) (.obj protoPatch) = some (.obj protoPatch) ∧
    topIndex (.obj protoPatch) "__proto__" = some (.num 1) ∧
    topIndex (.num 5) "__proto__" = none := by
  refine ⟨?_, ?_, rfl⟩ <;> simp [deepMerge, topIndex, protoPatch, assocGet]

/-- C10 (amended): whenever both base and patch are mappings (each genuinely
merged level of the recursion), the merge never writes the keys
`__proto__`, `constructor` or `prototype`: the merged mapping's entry at
such a key equals the base's entry there, including absence — regardless of
the patch's values.  (A patch mapping that wholesale-replaces a non-mapping
base value is cloned as-is, guarded keys included.) -/
theorem c10_amended_proto_guard (ae be : List (String × Doc)) (k : String)
    (hk : protoKey k = true) :
    deepMerge (.obj ae) (.obj be) = some (.obj (mergeEntries ae be)) ∧
    assocGet (mergeEntries ae be) k = assocGet ae k :=
  ⟨rfl, mergeEntries_assocGet_proto k hk be ae⟩

/-- Witness for `c10_amended_proto_guard`. -/
theorem c10_amended_witness :
    protoKey "__proto__" = true ∧
    assocGet (mergeEntries [("a", Doc.num 7)] protoPatch) "__proto__" =
      assocGet [("a", Doc.num 7)] "__proto__" :=
  ⟨by decide, (c10_amended_proto_guard [("a", Doc.num 7)] protoPatch "__proto__"
      (by decide)).2⟩

theorem emitSeq_cons (l : Listener) (ls : List Listener) (e : Event) :
    emitSeq (l :: ls) e =
      ((emitSeq ls ((l e).1)).1,
        (if (l e).2 then 1 else 0) + (emitSeq ls ((l e).1)).2) := by
  have h1 : emitSeq (l :: ls) e
      = List.foldl emitStep ((l e).1, 0 + (if (l e).2 then 1 else 0)) ls := by
    rw [emitSeq, List.foldl_cons]; rfl
  rw [h1, emitSeq_go]
  simp

theorem emitSeq_preserves_type (hs : List Listener)
    (h : ∀ l ∈ hs, ∀ ev : Event, ((l ev).1).type = ev.type) (e : Event) :
    ((emitSeq hs e).1).type = e.type := by
  induction hs generalizing e with
  | nil => rfl
  | cons l ls ih =>
      rw [emitSeq_cons]
      have hrec := ih (fun l' hl' => h l' (List.mem_cons_of_mem _ hl')) ((l e).1)
      simp only [hrec]
      exact h l (List.mem_cons_self _ _) e

theorem emitSeq_throw_mid (ls₁ ls₂ : List Listener) (f : Event → Event) (e : Event) :
    emitSeq (ls₁ ++ (fun ev => (f ev, true)) :: ls₂) e =
      ((emitSeq ls₂ (f (emitSeq ls₁ e).1)).1,
        (emitSeq ls₁ e).2 + 1 + (emitSeq ls₂ (f (emitSeq ls₁ e).1)).2) := by
  rw [emitSeq_append, emitSeq_cons]
  simp [Nat.add_assoc]

theorem emitSeq_pure_mid (ls₁ ls₂ : List Listener) (f : Event → Event) (e : Event) :
    emitSeq (ls₁ ++ (fun ev => (f ev, false)) :: ls₂) e =
      ((emitSeq ls₂ (f (emitSeq ls₁ e).1)).1,
        (emitSeq ls₁ e).2 + (emitSeq ls₂ (f (emitSeq ls₁ e).1)).2) := by
  rw [emitSeq_append, emitSeq_cons]
  simp

/-- `flushFinish` under a shift of one listener-error record: equal final
events and the same compatibility-emission event give identical outcomes,
with the error tally one higher. -/
theorem flushFinish_errors_shift (afterL changeL : List Listener) (st : DBState)
    (p : PendingWrite) (opName : String) (prim prim' before : Event × Nat)
    (lwp lwp' : Option (Event × Nat))
    (h1 : prim.1 = prim'.1)
    (hlp : lwpPrevented lwp = lwpPrevented lwp')
    (hlr : ∀ lb, lwpResult lwp lb = lwpResult lwp' lb)
    (hshift : prim.2 + lwpErrors lwp = prim'.2 + lwpErrors lwp' + 1) :
    flushFinish afterL changeL st p opName prim before lwp
      = { flushFinish afterL changeL st p opName prim' before lwp' with
          errors :=
            (flushFinish afterL changeL st p opName prim' before lwp').errors
              + 1 } := by
  unfold flushFinish
  rw [h1, hlp, hlr]
  by_cases hc : (prim'.1.defaultPrevented || lwpPrevented lwp') = true
  · simp only [hc, if_true]
    congr 1
    omega
  · simp only [Bool.not_eq_true] at hc
    simp only [hc, Bool.false_eq_true, if_false]
    by_cases hch : computeTopLevelChanges st.low prim'.1.newData = [] <;>
      simp only [hch, if_true, if_false, reduceIte] <;>
      (congr 1; omega)

/-- Two `write`-listener lists whose dispatches produce the same final event
but one extra listener-error record yield the same flush outcome with the
error tally shifted by one — in particular the same branch (cancelled or
persisted), the same state, resolutions, rejections and notifications. -/
theorem flushWrite_errors_shift (reg : Registry) (st : DBState) (p : PendingWrite)
    (ws ws' : List Listener) (prop : Doc) (hp : writeProposal st.low p = some prop)
    (h1 : ∀ ev : Event, (emitSeq ws ev).1 = (emitSeq ws' ev).1)
    (h2 : ∀ ev : Event, (emitSeq ws ev).2 = (emitSeq ws' ev).2 + 1) :
    flushWrite (regUpdate reg "write" ws) st p
      = { flushWrite (regUpdate reg "write" ws') st p with
          errors := (flushWrite (regUpdate reg "write" ws') st p).errors + 1 } := by
  unfold flushWrite
  rw [hp]
  by_cases hr : p.opts.replace = true
  · -- replace mode: the `write` listeners are dispatched as the
    -- compatibility pre-event
    simp only [hr, if_true, regUpdate, String.reduceEq, reduceIte]
    apply flushFinish_errors_shift
    · rfl
    · simp only [lwpPrevented, h1]
    · intro lb; simp only [lwpResult, h1]
    · simp only [lwpErrors]; rw [h2]; omega
  · -- merge mode: the `write` listeners are dispatched as the primary event
    simp only [Bool.not_eq_true] at hr
    simp only [hr, Bool.false_eq_true, if_false, regUpdate, String.reduceEq,
      reduceIte]
    apply flushFinish_errors_shift
    · exact h1 _
    · rfl
    · intro lb; rfl
    · simp only [lwpErrors]; rw [h2]

theorem flushWrite_rejected_zero (reg : Registry) (st : DBState)
    (p : PendingWrite) (prop : Doc) (hp : writeProposal st.low p = some prop) :
    (flushWrite reg st p).rejectedCount = 0 := by
  unfold flushWrite
  simp only [hp]
  unfold flushFinish
  dsimp only
  split_ifs <;> rfl

/-! ## C7 — hook errors are caught and non-fatal -/

/-- C7: for every hook dispatch, a registered hook that throws (modelled as
a listener flagged as throwing, with `f` its event effect) is caught:
dispatch continues through all remaining hooks in registration order,
exactly one listener-error record is appended to the event, the dispatched
event is exactly the one produced had the hook returned normally, and a
flushed write whose `write` hooks include the thrower produces the very
same outcome (same persist-or-cancel branch, state, resolutions and
notifications) with the error tally one higher — the throw is never
surfaced as a rejection of the operation. -/
theorem c7_thrown_hook_nonfatal (ls₁ ls₂ : List Listener) (f : Event → Event)
    (e : Event) (reg : Registry) (st : DBState) (p : PendingWrite) (prop : Doc)
    (hp : writeProposal st.low p = some prop) :
    emitSeq (ls₁ ++ (fun ev => (f ev, true)) :: ls₂) e =
      ((emitSeq ls₂ (f (emitSeq ls₁ e).1)).1,
        (emitSeq ls₁ e).2 + 1 + (emitSeq ls₂ (f (emitSeq ls₁ e).1)).2) ∧
    (emitSeq (ls₁ ++ (fun ev => (f ev, true)) :: ls₂) e).1
      = (emitSeq (ls₁ ++ (fun ev => (f ev, false)) :: ls₂) e).1 ∧
    (emitSeq (ls₁ ++ (fun ev => (f ev, true)) :: ls₂) e).2
      = (emitSeq (ls₁ ++ (fun ev => (f ev, false)) :: ls₂) e).2 + 1 ∧
    flushWrite (regUpdate reg "write" (ls₁ ++ (fun ev => (f ev, true)) :: ls₂)) st p
      = { flushWrite (regUpdate reg "write" (ls₁ ++ (fun ev => (f ev, false)) :: ls₂)) st p with
          errors :=
            (flushWrite (regUpdate reg "write"
                (ls₁ ++ (fun ev => (f ev, false)) :: ls₂)) st p).errors + 1 } ∧
    (flushWrite (regUpdate reg "write" (ls₁ ++ (fun ev => (f ev, true)) :: ls₂)) st p).rejectedCount
      = 0 := by
  have h1 : ∀ ev : Event,
      (emitSeq (ls₁ ++ (fun ev => (f ev, true)) :: ls₂) ev).1
        = (emitSeq (ls₁ ++ (fun ev => (f ev, false)) :: ls₂) ev).1 := by
    intro ev; rw [emitSeq_throw_mid, emitSeq_pure_mid]
  have h2 : ∀ ev : Event,
      (emitSeq (ls₁ ++ (fun ev => (f ev, true)) :: ls₂) ev).2
        = (emitSeq (ls₁ ++ (fun ev => (f ev, false)) :: ls₂) ev).2 + 1 := by
    intro ev; rw [emitSeq_throw_mid, emitSeq_pure_mid]; omega
  refine ⟨emitSeq_throw_mid ls₁ ls₂ f e, h1 e, h2 e, ?_, ?_⟩
  · exact flushWrite_errors_shift reg st p _ _ prop hp h1 h2
  · exact flushWrite_rejected_zero _ st p prop hp

/-- Witness for `c7_thrown_hook_nonfatal`: a single throwing identity hook
on a one-caller write of `{a:1}` over state `{}`. -/
theorem c7_witness :
    (writeProposal (Doc.obj [])
        ⟨some (.obj [("a", Doc.num 1)]), ⟨false, none⟩, 1⟩
      = some (.obj [("a", Doc.num 1)])) ∧
    (flushWrite (regUpdate emptyReg "write"
        ([] ++ (fun ev => (id ev, true)) :: []))
        ⟨.obj [], .obj [], .obj [], false, false⟩
        ⟨some (.obj [("a", Doc.num 1)]), ⟨false, none⟩, 1⟩).rejectedCount = 0 :=
  ⟨by simp [writeProposal, deepMerge, mergeEntries, mergeValue, protoKey, assocGet, assocSet],
   (c7_thrown_hook_nonfatal [] [] id
      (makeEvent "write" "write" (.obj []) (.obj [])) emptyReg
      ⟨.obj [], .obj [], .obj [], false, false⟩
      ⟨some (.obj [("a", Doc.num 1)]), ⟨false, none⟩, 1⟩
      (.obj [("a", Doc.num 1)])
      (by simp [writeProposal, deepMerge, mergeEntries, mergeValue, protoKey, assocGet, assocSet])).2.2.2.2⟩

/-! ## C1 / C8 — debounce-window coalescing -/

/-- The caller count held by an optional pending intent. -/
def pwCallers : Option PendingWrite → Nat
  | none => 0
  | some p => p.callers

theorem submitAll_go (subs : List (Option Doc × WOpts)) (pw : Option PendingWrite)
    (h : subs ≠ []) :
    subs.foldl (fun pw s => some (submitWrite pw s.1 s.2)) pw =
      some { data := (subs.getLast h).1, opts := (subs.getLast h).2,
             callers := pwCallers pw + subs.length } := by
  induction subs generalizing pw with
  | nil => exact absurd rfl h
  | cons s rest ih =>
      cases rest with
      | nil =>
          cases pw <;> simp [submitWrite, pwCallers, List.getLast]
      | cons s' rest' =>
          have hne : (s' :: rest') ≠ [] := by simp
          rw [List.foldl_cons, ih (some (submitWrite pw s.1 s.2)) hne]
          have hc : pwCallers (some (submitWrite pw s.1 s.2)) = pwCallers pw + 1 := by
            cases pw <;> simp [submitWrite, pwCallers]
          have hl : (s :: s' :: rest').getLast h = (s' :: rest').getLast hne :=
            List.getLast_cons hne
          have harith : pwCallers pw + 1 + (s' :: rest').length
              = pwCallers pw + (s :: s' :: rest').length := by
            simp only [List.length_cons]; omega
          rw [hc, hl, harith]

/-- Coalescing in one window: the pending intent carries the last submitted
payload and options and one resolver per submission. -/
theorem submitAll_last (subs : List (Option Doc × WOpts)) (h : subs ≠ []) :
    submitAll subs =
      some { data := (subs.getLast h).1, opts := (subs.getLast h).2,
             callers := subs.length } := by
  rw [submitAll, submitAll_go subs none h]; simp [pwCallers]

/-- The flush of a pending write with no hooks registered: the proposal is
persisted (runtime, disk and snapshot all take it), exactly one physical
write occurs, every coalesced caller resolves with `undefined`, and the
`change` event (origin `internal`) fires iff the top-level diff is
nonempty. -/
theorem flushWrite_emptyReg (st : DBState) (p : PendingWrite) (prop : Doc)
    (h : writeProposal st.low p = some prop) :
    flushWrite emptyReg st p =
      { st := { st with low := prop, disk := prop, snapshot := prop },
        writes := 1, resolvedWith := none, resolvedCount := p.callers,
        rejectedCount := 0,
        changeCount := if computeTopLevelChanges st.low prop = [] then 0 else 1,
        changeSource :=
          if computeTopLevelChanges st.low prop = [] then none
          else some "internal",
        errors := 0 } := by
  unfold flushWrite
  rw [h]
  by_cases hr : p.opts.replace <;>
    by_cases hc : computeTopLevelChanges st.low prop = [] <;>
      simp [hr, hc, emptyReg, emitSeq, makeEvent, flushFinish, lwpPrevented,
        lwpResult, lwpErrors]

/-- Modelled from the spec's words, for comparison with the code: "the
persisted result reflects merging all N payloads in submission order
against the pre-window state" — a left fold of deep-merge over all
submitted payloads. -/
def specMergeAllPayloads (pre : Doc) (payloads : List Doc) : Option Doc :=
  payloads.foldl (fun acc d =>
    match acc with
    | some a => deepMerge a d
    | none => none) (some pre)

/-- C1 counterexample: two merge-mode writes inside one window, payloads
`{a:1}` then `{b:2}`, over pre-window state `{}`.  The single write
persists `{b:2}` (last payload wins at the coalescing boundary), not the
`{a:1, b:2}` that deep-merging all payloads in submission order would
produce. -/
theorem c1_counterexample :
    submitAll [writeCall (.obj [("a", Doc.num 1)]),
               writeCall (.obj [("b", Doc.num 2)])] =
      some ⟨some (.obj [("b", Doc.num 2)]), ⟨false, none⟩, 2⟩ ∧
    (flushWrite emptyReg ⟨.obj [], .obj [], .obj [], false, false⟩
        ⟨some (.obj [("b", Doc.num 2)]), ⟨false, none⟩, 2⟩).writes = 1 ∧
    (flushWrite emptyReg ⟨.obj [], .obj [], .obj [], false, false⟩
        ⟨some (.obj [("b", Doc.num 2)]), ⟨false, none⟩, 2⟩).st.disk =
      .obj [("b", Doc.num 2)] ∧
    specMergeAllPayloads (.obj [])
        [.obj [("a", Doc.num 1)], .obj [("b", Doc.num 2)]] =
      some (.obj [("a", Doc.num 1), ("b", Doc.num 2)]) ∧
    (Doc.obj [("b", Doc.num 2)]) ≠ (.obj [("a", Doc.num 1), ("b", Doc.num 2)]) := by
  have hp : writeProposal (Doc.obj [])
      ⟨some (.obj [("b", Doc.num 2)]), ⟨false, none⟩, 2⟩
        = some (.obj [("b", Doc.num 2)]) := by
    simp [writeProposal, deepMerge, mergeEntries, mergeValue, protoKey,
      assocGet, assocSet]
  refine ⟨?_, ?_, ?_, ?_, by decide⟩
  · simp [submitAll, submitWrite, writeCall]
  · rw [flushWrite_emptyReg _ _ _ hp]
  · rw [flushWrite_emptyReg _ _ _ hp]
  · simp [specMergeAllPayloads, deepMerge, mergeEntries, mergeValue, protoKey,
      assocGet, assocSet]

/-- C1 (amended): for every burst of submissions landing inside one debounce
window (no hooks registered), exactly one physical write occurs; the
persisted result applies only the LAST submitted payload and options to the
pre-window state (deep-merged in merge mode, taken as the new root in
replace mode — last-write-wins at the coalescing boundary); and every one
of the N coalesced callers is resolved (with `undefined`) from that single
operation. -/
theorem c1_amended_single_write_last_payload (st : DBState)
    (subs : List (Option Doc × WOpts)) (h : subs ≠ []) :
    ∃ pw, submitAll subs = some pw ∧
      pw.data = (subs.getLast h).1 ∧ pw.opts = (subs.getLast h).2 ∧
      pw.callers = subs.length ∧
      ∀ prop, writeProposal st.low pw = some prop →
        (flushWrite emptyReg st pw).writes = 1 ∧
        (flushWrite emptyReg st pw).st.disk = prop ∧
        (flushWrite emptyReg st pw).st.low = prop ∧
        (flushWrite emptyReg st pw).resolvedCount = subs.length ∧
        (flushWrite emptyReg st pw).resolvedWith = none ∧
        (flushWrite emptyReg st pw).rejectedCount = 0 := by
  refine ⟨_, submitAll_last subs h, rfl, rfl, rfl, ?_⟩
  intro prop hp
  rw [flushWrite_emptyReg st _ prop hp]
  exact ⟨rfl, rfl, rfl, rfl, rfl, rfl⟩

/-- Witness for `c1_amended_single_write_last_payload`. -/
theorem c1_amended_witness :
    ([replaceCall (.obj [("a", Doc.num 1)])] :
        List (Option Doc × WOpts)) ≠ [] ∧
    ∃ pw, submitAll [replaceCall (.obj [("a", Doc.num 1)])] = some pw ∧
      pw.data = some (.obj [("a", Doc.num 1)]) ∧
      pw.opts = { replace := true, op := some "replace" } ∧
      pw.callers = 1 ∧
      ∀ prop, writeProposal (Doc.obj []) pw = some prop →
        (flushWrite emptyReg ⟨.obj [], .obj [], .obj [], false, false⟩ pw).writes = 1 ∧
        (flushWrite emptyReg ⟨.obj [], .obj [], .obj [], false, false⟩ pw).st.disk = prop ∧
        (flushWrite emptyReg ⟨.obj [], .obj [], .obj [], false, false⟩ pw).st.low = prop ∧
        (flushWrite emptyReg ⟨.obj [], .obj [], .obj [], false, false⟩ pw).resolvedCount = 1 ∧
        (flushWrite emptyReg ⟨.obj [], .obj [], .obj [], false, false⟩ pw).resolvedWith = none ∧
        (flushWrite emptyReg ⟨.obj [], .obj [], .obj [], false, false⟩ pw).rejectedCount = 0 :=
  ⟨by decide,
   c1_amended_single_write_last_payload
     ⟨.obj [], .obj [], .obj [], false, false⟩
     [replaceCall (.obj [("a", Doc.num 1)])] (by decide)⟩

/-- C8: `replace({a:1})` followed, inside the same debounce window, by
`resetDefault()`: the coalesced intent carries the clone of the configured
default data with replace semantics, so the single flush persists the
default data — not `{a:1}`. -/
theorem c8_replace_then_resetDefault (st : DBState) (defaultData : Doc)
    (hne : defaultData ≠ .obj [("a", Doc.num 1)]) :
    ∃ pw,
      submitAll [replaceCall (.obj [("a", Doc.num 1)]),
                 resetDefaultCall defaultData] = some pw ∧
      (flushWrite emptyReg st pw).writes = 1 ∧
      (flushWrite emptyReg st pw).st.disk = defaultData ∧
      (flushWrite emptyReg st pw).st.low = defaultData ∧
      (flushWrite emptyReg st pw).st.disk ≠ .obj [("a", Doc.num 1)] := by
  refine ⟨⟨some defaultData, ⟨true, some "resetDefault"⟩, 2⟩, ?_, ?_⟩
  · simp [submitAll, submitWrite, replaceCall, resetDefaultCall]
  · have hp : writeProposal st.low ⟨some defaultData, ⟨true, some "resetDefault"⟩, 2⟩
        = some defaultData := by simp [writeProposal]
    rw [flushWrite_emptyReg st _ defaultData hp]
    exact ⟨rfl, rfl, rfl, hne⟩

/-! ## C2 — `setResult` in a write hook -/

/-- C2: for every merge-mode write (any state, any payload whose proposal
computes, any other registered hooks) where the write hooks are any
type-preserving hooks followed by one that calls `setResult("X")`: the
operation is cancelled — every coalesced caller resolves with `"X"`, no
physical write occurs (state, including the backing file, is untouched),
and no `change` notification is dispatched. -/
theorem c2_setResult_cancels_write (st : DBState) (p : PendingWrite)
    (reg : Registry) (hs : List Listener)
    (hmode : p.opts.replace = false)
    (htype : ∀ l ∈ hs, ∀ ev : Event, ((l ev).1).type = ev.type)
    (hprop : (writeProposal st.low p).isSome) :
    (flushWrite (regUpdate reg "write" (hs ++ [setResultHook (.str "X")])) st p).resolvedWith
        = some (.str "X") ∧
    (flushWrite (regUpdate reg "write" (hs ++ [setResultHook (.str "X")])) st p).writes = 0 ∧
    (flushWrite (regUpdate reg "write" (hs ++ [setResultHook (.str "X")])) st p).st = st ∧
    (flushWrite (regUpdate reg "write" (hs ++ [setResultHook (.str "X")])) st p).changeCount = 0 ∧
    (flushWrite (regUpdate reg "write" (hs ++ [setResultHook (.str "X")])) st p).resolvedCount
        = p.callers ∧
    (flushWrite (regUpdate reg "write" (hs ++ [setResultHook (.str "X")])) st p).rejectedCount
        = 0 := by
  obtain ⟨prop, hp⟩ := Option.isSome_iff_exists.mp hprop
  set regW := regUpdate reg "write" (hs ++ [setResultHook (.str "X")]) with hreg
  have hw : regW "write" = hs ++ [setResultHook (.str "X")] := by
    simp [hreg, regUpdate]
  set ev0 := makeEvent "write" (p.opts.op.getD "write") st.low prop with hev0
  have hty : ((emitSeq hs ev0).1).type = "write" :=
    emitSeq_preserves_type hs htype ev0
  have hsingleton : ∀ m : Event, (emitSeq [setResultHook (.str "X")] m).1
      = { m with
            result := some (.str "X"),
            defaultPrevented :=
              if m.type = "change" ∨ m.type = "error" then m.defaultPrevented
              else true } := fun m => rfl
  have hprim : (emitSeq (regW "write") ev0).1
      = { (emitSeq hs ev0).1 with result := some (.str "X"), defaultPrevented := true } := by
    rw [hw, emitSeq_append]
    show (emitSeq [setResultHook (.str "X")] (emitSeq hs ev0).1).1 = _
    rw [hsingleton, hty]
    norm_num
    exact ⟨hty.symm, Or.inl ⟨by decide, by decide⟩⟩
  unfold flushWrite
  rw [hp]
  simp only [hmode, Bool.false_eq_true, if_false, hev0.symm]
  simp only [flushFinish, hprim]
  simp [lwpPrevented, lwpResult, lwpErrors]

/-- Witness for `c2_setResult_cancels_write`: empty other hooks, empty
registry, a one-caller write of `{a:1}` over state `{}`. -/
theorem c2_witness :
    ((⟨some (.obj [("a", Doc.num 1)]), ⟨false, none⟩, 1⟩ : PendingWrite).opts.replace
        = false) ∧
    (∀ l ∈ ([] : List Listener), ∀ ev : Event, ((l ev).1).type = ev.type) ∧
    (writeProposal (Doc.obj [])
        ⟨some (.obj [("a", Doc.num 1)]), ⟨false, none⟩, 1⟩).isSome ∧
    ((flushWrite (regUpdate emptyReg "write" ([] ++ [setResultHook (.str "X")]))
        ⟨.obj [], .obj [], .obj [], false, false⟩
        ⟨some (.obj [("a", Doc.num 1)]), ⟨false, none⟩, 1⟩).resolvedWith
      = some (.str "X")) :=
  ⟨rfl, by simp,
   by simp [writeProposal, deepMerge, mergeEntries, mergeValue, protoKey, assocGet, assocSet],
   (c2_setResult_cancels_write ⟨.obj [], .obj [], .obj [], false, false⟩
      ⟨some (.obj [("a", Doc.num 1)]), ⟨false, none⟩, 1⟩ emptyReg []
      rfl (by simp) (by simp [writeProposal, deepMerge, mergeEntries, mergeValue, protoKey, assocGet, assocSet])).1⟩

/-- Witness for `c8_replace_then_resetDefault` at default data `{}`. -/
theorem c8_witness :
    (Doc.obj [] ≠ .obj [("a", Doc.num 1)]) ∧
    ∃ pw,
      submitAll [replaceCall (.obj [("a", Doc.num 1)]),
                 resetDefaultCall (.obj [])] = some pw ∧
      (flushWrite emptyReg ⟨.obj [], .obj [], .obj [], false, false⟩ pw).writes = 1 ∧
      (flushWrite emptyReg ⟨.obj [], .obj [], .obj [], false, false⟩ pw).st.disk = .obj [] ∧
      (flushWrite emptyReg ⟨.obj [], .obj [], .obj [], false, false⟩ pw).st.low = .obj [] ∧
      (flushWrite emptyReg ⟨.obj [], .obj [], .obj [], false, false⟩ pw).st.disk ≠
        .obj [("a", Doc.num 1)] :=
  ⟨by decide,
   c8_replace_then_resetDefault ⟨.obj [], .obj [], .obj [], false, false⟩
     (.obj []) (by decide)⟩

end GentleDB
